import Mathlib

/-!
Verification development for the deterministic manufacturing job-shop
simulator core.  The Python sources are shallowly embedded:

* `src/engine/release_control.py` — `release_jobs`, `token_balance`
* `src/engine/rework.py`          — `apply_rework_if_needed`
* `src/engine/failures.py`        — `next_downtime`
* `src/engine/dispatch.py`        — `compute_priority`
* `src/manufacturing_module.py`   — `run_simulation` (simulation loop and
  KPI aggregation; artifact persistence is I/O and is not part of the
  returned value model)

Python `float` arithmetic is modelled over `ℚ`; `datetime` values are
modelled as rational hours on an absolute axis (a `timedelta` of `h`
hours is `+ h`, `total_seconds` is `* 3600`); Python dicts keyed by
strings are modelled as association lists with first-match lookup and
replace-or-append insertion, which agrees with dict semantics whenever
keys are unique (and is itself a coherent map model in general).
A raised exception is modelled as `Option.none`.
-/

namespace JobShop

/-- First-match lookup in a string-keyed association list (models Python
`dict.get(k)`). -/
def lookupA {β : Type} : List (String × β) → String → Option β
  | [], _ => Option.none
  | p :: ps, k => if p.1 = k then some p.2 else lookupA ps k

/-- Replace-or-append insertion (models Python `d[k] = v`). -/
def insertA {β : Type} : List (String × β) → String → β → List (String × β)
  | [], k, v => [(k, v)]
  | p :: ps, k, v => if p.1 = k then (k, v) :: ps else p :: insertA ps k v

/-- `d.get(k, 0)` on an integer-valued dict. -/
def getI (m : List (String × Int)) (k : String) : Int :=
  (lookupA m k).getD 0

@[simp] theorem lookupA_nil {β : Type} (k : String) :
    lookupA ([] : List (String × β)) k = Option.none := rfl

@[simp] theorem lookupA_cons {β : Type} (p : String × β) (ps : List (String × β)) (k : String) :
    lookupA (p :: ps) k = if p.1 = k then some p.2 else lookupA ps k := rfl

theorem lookupA_insertA_self {β : Type} (m : List (String × β)) (k : String) (v : β) :
    lookupA (insertA m k v) k = some v := by
  induction m with
  | nil => simp [insertA]
  | cons p ps ih =>
      by_cases h : p.1 = k
      · simp [insertA, h]
      · simp [insertA, h, ih]

theorem lookupA_insertA_ne {β : Type} (m : List (String × β)) (k r : String) (v : β)
    (h : k ≠ r) : lookupA (insertA m k v) r = lookupA m r := by
  induction m with
  | nil => simp [insertA, h]
  | cons p ps ih =>
      by_cases hp : p.1 = k
      · subst hp
        simp [insertA, h]
      · simp only [insertA, if_neg hp, lookupA_cons]
        by_cases hr : p.1 = r
        · simp [hr]
        · simp [hr, ih]

/-! ## Release Controller (`src/engine/release_control.py`) -/

/-- A pending job record as consumed by `release_jobs`: the dict keys
`job_id`, `route_id` and `route` (each possibly absent). -/
structure RJob where
  job_id : Option String
  route_id : Option String
  route : Option String
deriving DecidableEq, Repr

/-- Python truthiness of an optional string: `None` and `""` are falsy. -/
def truthyStr : Option String → Option String
  | Option.none => Option.none
  | some s => if s = "" then Option.none else some s

/-- `str(job.get("route_id") or job.get("route") or "default")`. -/
def routeOf (j : RJob) : String :=
  match truthyStr j.route_id with
  | some r => r
  | Option.none =>
      match truthyStr j.route with
      | some r => r
      | Option.none => "default"

/-- The state dict consumed by `release_jobs`. -/
structure RelState where
  pending : List RJob
  wip_caps : List (String × Int)
  tokens : List (String × Int)
  wip_counts : List (String × Int)
deriving Repr

/-- The local bookkeeping of one `release_jobs` call: the `selected`
list, `local_tokens` and `local_wip`. -/
structure RelAcc where
  selected : List String
  tokens : List (String × Int)
  wip : List (String × Int)
deriving DecidableEq, Repr

/-- Which branch of the loop body fired for one pending job. -/
inductive ReleaseBranch
  | fromRoute
  | fromGlobal
  | skip
deriving DecidableEq, Repr

/-- `_route_cap(route)`: `int(wip_caps.get(route, global_cap))`. -/
def routeCapD (caps : List (String × Int)) (gcap : Int) (r : String) : Int :=
  (lookupA caps r).getD gcap

/-- One iteration of the CONWIP/POLCA loop body of `release_jobs`
(everything after the global-cap break check), together with a tag
recording which branch fired. -/
def releaseStepT (gcap : Int) (caps : List (String × Int)) (acc : RelAcc) (job : RJob) :
    RelAcc × ReleaseBranch :=
  match truthyStr job.job_id with
  | Option.none => (acc, ReleaseBranch.skip)
  | some jid =>
    let route := routeOf job
    let cap := routeCapD caps gcap route
    let current := getI acc.wip route
    let avail := getI acc.tokens route
    if current < cap ∧ 0 < avail then
      ({ selected := acc.selected ++ [jid],
         tokens := insertA acc.tokens route (avail - 1),
         wip := insertA acc.wip route (current + 1) }, ReleaseBranch.fromRoute)
    else
      match lookupA acc.tokens "global" with
      | some g =>
          if current < cap ∧ 0 < g then
            ({ selected := acc.selected ++ [jid],
               tokens := insertA acc.tokens "global" (g - 1),
               wip := insertA acc.wip route (current + 1) }, ReleaseBranch.fromGlobal)
          else (acc, ReleaseBranch.skip)
      | Option.none => (acc, ReleaseBranch.skip)

/-- The CONWIP/POLCA `for job in pending` loop, including the
`if len(selected) >= global_cap: break` check at the head of each
iteration. -/
def releaseLoop (gcap : Int) (caps : List (String × Int)) :
    List RJob → RelAcc → RelAcc
  | [], acc => acc
  | j :: rest, acc =>
      if gcap ≤ (acc.selected.length : Int) then acc
      else releaseLoop gcap caps rest (releaseStepT gcap caps acc j).1

/-- `int(wip_caps.get("global", len(pending)))`. -/
def globalCap (state : RelState) : Int :=
  (lookupA state.wip_caps "global").getD (state.pending.length : Int)

/-- The full local bookkeeping result of a CONWIP/POLCA `release_jobs`
call: selected jobs plus final local token and WIP views. -/
def conwipResult (state : RelState) : RelAcc :=
  releaseLoop (globalCap state) state.wip_caps state.pending
    { selected := [], tokens := state.tokens, wip := state.wip_counts }

/-- `release_jobs(now, policy, state)`.  `now` is unused by the source. -/
def release_jobs (now : ℚ) (policy : String) (state : RelState) : List String :=
  if state.pending = [] then []
  else if policy = "CONWIP" ∨ policy = "POLCA" then
    (conwipResult state).selected
  else
    match state.pending with
    | [] => []
    | first :: _ =>
        match truthyStr first.job_id with
        | some jid => [jid]
        | Option.none => []

/-- `token_balance(route, state)`. -/
def token_balance (route : String) (state : RelState) : Int :=
  getI state.tokens route

/-! ## Rework Decision (`src/engine/rework.py`) -/

/-- `InspectionOutcome` (the `details` field plays no role in the logic). -/
structure InspectionOutcome where
  inspection_failed : Bool
  rework_allowed : Bool
deriving DecidableEq, Repr

/-- A dict-shaped route step: the private `_rework_attempts` counter
(an integer, present — `step.get("_rework_attempts", 0)` of steps that
carry the counter) together with all remaining dict entries, which
`dict(step)` copies unchanged. -/
structure RWStep where
  rework_attempts : Int
  payload : List (String × String)
deriving DecidableEq, Repr

/-- `apply_rework_if_needed(job_id, step, outcome, max_rework_attempts)`
restricted to dict steps (the non-dict fallback branch of the source is
outside the `RWStep` domain).  The function is pure: the returned step
is a copy, the argument is untouched. -/
def apply_rework_if_needed (job_id : String) (step : RWStep)
    (outcome : InspectionOutcome) (max_rework_attempts : Int) : Option RWStep :=
  if ¬ (outcome.inspection_failed ∧ outcome.rework_allowed) then Option.none
  else if max_rework_attempts ≤ step.rework_attempts then Option.none
  else some { step with rework_attempts := step.rework_attempts + 1 }

/-! ## Downtime Generator (`src/engine/failures.py`) -/

/-- `DowntimeWindow` dataclass. -/
structure DowntimeWindow where
  machine_id : String
  start : Option ℚ
  endT : Option ℚ
  reason : Option String
deriving DecidableEq, Repr

/-- `next_downtime(machine_id, now, mtbf_hours, mttr_hours, rng)`.

`pln` models `math.log` (a real-valued transcendental, abstracted as a
rational parameter; the deterministic `rng = None` branch never uses
it).  A provided RNG is modelled by its stream of `random()` draws;
the source consumes one draw.  The `try/except` around the sampling is
unreachable in the model (`math.log` is guarded away from `u <= 0`). -/
def next_downtime (pln : ℚ → ℚ) (machine_id : String) (now : ℚ)
    (mtbf_hours mttr_hours : ℚ) (rng : Option (ℕ → ℚ)) : DowntimeWindow :=
  match rng with
  | Option.none =>
      { machine_id := machine_id
        start := some (now + mtbf_hours)
        endT := some (now + mtbf_hours + mttr_hours)
        reason := some "scheduled-placeholder" }
  | some r =>
      let u0 := r 0
      let u := if u0 ≤ 0 then 1 / 1000000000000 else u0
      let ttf_hours := -mtbf_hours * pln u
      { machine_id := machine_id
        start := some (now + ttf_hours)
        endT := some (now + ttf_hours + mttr_hours)
        reason := some "predicted-failure" }

/-! ## Dispatch Priority Evaluator (`src/engine/dispatch.py`) -/

/-- A Python value occupying the `process_time_mean` / `processing_time`
slots: `None`, a number, or a string. -/
inductive PyVal
  | vnone
  | num (q : ℚ)
  | str (s : String)
deriving DecidableEq, Repr

/-- A Python value occupying the `due_date` slot: `None`, a `datetime`
(rational hours), a string, or any other type (which `_parse_due` maps
to `None`). -/
inductive DueVal
  | vnone
  | dt (t : ℚ)
  | str (s : String)
  | other
deriving DecidableEq, Repr

/-- A job dict as viewed by `compute_priority`; `Option.none` models a
missing key. -/
structure DJob where
  due_date : Option DueVal
  process_time_mean : Option PyVal
  processing_time : Option PyVal
deriving Repr

/-- `_parse_due`, parameterised by the ISO-format parser
(`datetime.fromisoformat`, modelled as `parseDue`, `Option.none` when
the string does not parse). -/
def parse_due (parseDue : String → Option ℚ) : DueVal → Option ℚ
  | DueVal.vnone => Option.none
  | DueVal.dt t => some t
  | DueVal.str s => parseDue s
  | DueVal.other => Option.none

/-- The `pt` coercion of `compute_priority`:
`float(pt_raw) if pt_raw is not None and pt_raw != "" else 0.0`,
`except` falling back to `0.0`; `parseF` models `float(str)`
(`Option.none` when the string is non-numeric). -/
def ptOf (parseF : String → Option ℚ) (raw : PyVal) : ℚ :=
  match raw with
  | PyVal.vnone => 0
  | PyVal.num q => q
  | PyVal.str s => if s = "" then 0 else (parseF s).getD 0

/-- `pt_raw = job.get("process_time_mean", job.get("processing_time", 0.0))`. -/
def ptRawOf (j : DJob) : PyVal :=
  j.process_time_mean.getD (j.processing_time.getD (PyVal.num 0))

/-- `(rule or "").upper()` (structural ASCII uppercase, matching the
source's rule names). -/
def pyUpper (s : String) : String :=
  ⟨s.data.map Char.toUpper⟩

/-- `compute_priority(rule, job, state, now)`; `pexp` models `math.exp`
(abstracted, used only by the ATC/ATCS branch), `parseF` models `float`
on strings, `parseDue` models `datetime.fromisoformat`.  The `state`
argument of the source is unused and omitted.  The function is total:
no input raises. -/
def compute_priority (pexp : ℚ → ℚ) (parseF parseDue : String → Option ℚ)
    (rule : String) (job : DJob) (now : ℚ) : ℚ :=
  let r := pyUpper rule
  let due_dt := parse_due parseDue (job.due_date.getD DueVal.vnone)
  let pt := ptOf parseF (ptRawOf job)
  if r = "EDD" then
    match due_dt with
    | Option.none => 0
    | some t => -((t - now) * 3600)
  else if r = "SPT" then
    1 / (pt + 1 / 1000000)
  else if r = "ATC" ∨ r = "ATCS" then
    match due_dt with
    | Option.none => 0
    | some t =>
        let lead_hours := max 0 (t - now)
        let denom := if 0 < pt then pt else 1
        pexp (-lead_hours / 168) / (denom * 1)
  else if r = "LSN" then
    match due_dt with
    | Option.none => 0
    | some t => -((t - now) * 3600 - pt * 3600)
  else 0

/-! ## Simulation Clock & Timeline Builder (`src/manufacturing_module.py`)

`run_simulation(manifest)` is embedded as a pure function of the
manifest fields (`run_id`, `project_id`, `seed`, `scenario`), the
stream of `rng.uniform(-0.05, 0.05)` draws of `random.Random(seed)`
(one draw per job, in job order — `draw i` is the draw consumed for the
`i`-th job), and the two `datetime.utcnow()` readings (`base`, the one
taken before the loop, and `genAt`, the one stored as `generated_at`).
The CSV/JSON artifact persistence is filesystem I/O outside the value
model; the returned value is the timeline row list and the KPI report.
`Option.none` models an uncaught exception aborting the call. -/

/-- One record of `scenario["jobs"]`; `Option.none` models a missing key. -/
structure SimJob where
  job_id : Option String
  product_id : Option String
  process_time_mean : Option ℚ
  due_offset_hours : Option ℚ
  release_offset_hours : Option ℚ
deriving DecidableEq, Repr

/-- One row of `scenario["setup_matrix"]`. -/
structure SetupRow where
  from_family_id : Option String
  to_family_id : Option String
  setup_time : Option ℚ
deriving DecidableEq, Repr

/-- The scenario fields `run_simulation` reads (`routings` and
`wip_policy` are ignored by the source). -/
structure Scenario where
  jobs : List SimJob
  setup_matrix : List SetupRow
deriving DecidableEq, Repr

/-- The `setup_lookup` dict: built row by row with later rows
overwriting earlier ones, so a lookup finds the last matching row;
`str(row.get(..., ""))` and `float(row.get("setup_time", 0.0))`
defaults applied. -/
def setupLookup (m : List SetupRow) (ff tf : String) : Option ℚ :=
  (m.reverse.find? fun r =>
    (r.from_family_id.getD "") = ff ∧ (r.to_family_id.getD "") = tf).map
    fun r => (r.setup_time).getD 0

/-- Timeline row kinds (`"setup"` / `"process"` in the CSV). -/
inductive EventKind
  | setup
  | process
deriving DecidableEq, Repr

/-- One timeline row.  Setup rows fill `product_family_from` /
`product_family_to`; process rows fill `product_family`. -/
structure TimelineEvent where
  run_id : String
  job_id : String
  machine_id : String
  event : EventKind
  start : ℚ
  endT : ℚ
  duration_hours : ℚ
  product_family : Option String
  product_family_from : Option String
  product_family_to : Option String
deriving DecidableEq, Repr

/-- The loop state of `run_simulation`: the timeline built so far, the
single entry of `machine_work_seconds` (`Option.none` while the `"M1"`
key is absent), `job_completion_times`, `last_family` and
`machine_available_at`. -/
structure SimState where
  timeline : List TimelineEvent
  workSeconds : Option ℚ
  completions : List (String × ℚ)
  lastFamily : Option String
  availableAt : ℚ
deriving DecidableEq, Repr

/-- The state before the first loop iteration. -/
def initSimState (base : ℚ) : SimState :=
  { timeline := [], workSeconds := Option.none, completions := []
    lastFamily := Option.none, availableAt := base }

/-- The body of `for idx, job in enumerate(jobs_input)`. -/
def simStep (runId : String) (stp : List SetupRow) (base : ℚ) (draw : ℕ → ℚ)
    (idx : ℕ) (job : SimJob) (st : SimState) : SimState :=
  let jid := (job.job_id).getD ("job-" ++ toString idx)
  let product := (job.product_id).getD ("prod-" ++ toString idx)
  let pt := (job.process_time_mean).getD 1
  let release_time := base + (job.release_offset_hours).getD 0
  let setupH : ℚ :=
    match st.lastFamily with
    | Option.none => 0
    | some lf => (setupLookup stp lf product).getD 0
  let jitter := draw idx * pt
  let eff := max 0 (pt + jitter)
  let start0 := max st.availableAt release_time
  if 0 < setupH then
    let sEnd := start0 + setupH
    { timeline := st.timeline ++
        [{ run_id := runId, job_id := jid, machine_id := "M1"
           event := EventKind.setup, start := start0, endT := sEnd
           duration_hours := setupH, product_family := Option.none
           product_family_from := st.lastFamily, product_family_to := some product },
         { run_id := runId, job_id := jid, machine_id := "M1"
           event := EventKind.process, start := sEnd, endT := sEnd + eff
           duration_hours := eff, product_family := some product
           product_family_from := Option.none, product_family_to := Option.none }]
      workSeconds := some ((st.workSeconds).getD 0 + setupH * 3600 + eff * 3600)
      completions := insertA st.completions jid (sEnd + eff)
      lastFamily := some product
      availableAt := sEnd + eff }
  else
    { timeline := st.timeline ++
        [{ run_id := runId, job_id := jid, machine_id := "M1"
           event := EventKind.process, start := start0, endT := start0 + eff
           duration_hours := eff, product_family := some product
           product_family_from := Option.none, product_family_to := Option.none }]
      workSeconds := some ((st.workSeconds).getD 0 + eff * 3600)
      completions := insertA st.completions jid (start0 + eff)
      lastFamily := some product
      availableAt := start0 + eff }

/-- The simulation loop. -/
def simLoop (runId : String) (stp : List SetupRow) (base : ℚ) (draw : ℕ → ℚ) :
    ℕ → List SimJob → SimState → SimState
  | _, [], st => st
  | idx, j :: rest, st =>
      simLoop runId stp base draw (idx + 1) rest (simStep runId stp base draw idx j st)

/-- The KPI pass `for idx, job in enumerate(jobs_input)`: returns the
`lead_times_hours` list (in job order) and `otd_count`. -/
def leadOtd (base : ℚ) (compl : List (String × ℚ)) :
    ℕ → List SimJob → List ℚ × ℕ
  | _, [] => ([], 0)
  | idx, j :: rest =>
      let jid := (j.job_id).getD ("job-" ++ toString idx)
      let completion := (lookupA compl jid).getD base
      let due := base + (j.due_offset_hours).getD 24
      let lead := max 0 (completion - (base + (j.release_offset_hours).getD 0))
      let tail := leadOtd base compl (idx + 1) rest
      (lead :: tail.1, if completion ≤ due then tail.2 + 1 else tail.2)

/-- Stable ascending sort (Python `sorted` on the lead-time sample). -/
def insertSorted (x : ℚ) : List ℚ → List ℚ
  | [] => [x]
  | y :: ys => if y ≤ x then y :: insertSorted x ys else x :: y :: ys

/-- Ascending sort of a rational list. -/
def sortAsc : List ℚ → List ℚ
  | [] => []
  | x :: xs => insertSorted x (sortAsc xs)

/-- `statistics.quantiles(data, n=n)` (default `method='exclusive'`):
`Option.none` models the `StatisticsError` raised when the sample has
fewer than two points (or `n < 1`). -/
def quantilesExclusive (data : List ℚ) (n : ℕ) : Option (List ℚ) :=
  if n < 1 then Option.none
  else
    let d := sortAsc data
    let ld := d.length
    if ld < 2 then Option.none
    else
      let m := ld + 1
      some ((List.range (n - 1)).map fun i0 =>
        let i := i0 + 1
        let j0 := i * m / n
        let delta := i * m % n
        let j := if j0 < 1 then 1 else if j0 > ld - 1 then ld - 1 else j0
        (d.getD (j - 1) 0 * ((n : ℚ) - (delta : ℚ)) + d.getD j 0 * (delta : ℚ)) / (n : ℚ))

/-- Python `round(x, 4)` (round-half-to-even) over `ℚ`. -/
def roundHalfEven (x : ℚ) : Int :=
  let f := Int.floor x
  let frac := x - (f : ℚ)
  if frac < 1 / 2 then f
  else if 1 / 2 < frac then f + 1
  else if f % 2 = 0 then f else f + 1

/-- `round(x, 4)`. -/
def round4 (x : ℚ) : ℚ :=
  (roundHalfEven (x * 10000) : ℚ) / 10000

/-- The KPI report (`kpi_report` dict); `machine_utilization` is the
value at the single machine key `"M1"` (`Option.none` when
`machine_work_seconds` stayed empty). -/
structure KpiReport where
  run_id : String
  project_id : String
  seed : Int
  total_jobs : ℕ
  otd_pct : ℚ
  lead_time_avg_hours : ℚ
  lead_time_p90_hours : ℚ
  machine_utilization : Option ℚ
  generated_at : ℚ
deriving DecidableEq, Repr

/-- The tail of `run_simulation` after the `lead_p90` computation: a
raised `StatisticsError` (`p90A = Option.none`) propagates and aborts
the call; otherwise the KPI report is assembled and returned with the
timeline rows. -/
def finishRun (timeline : List TimelineEvent) (runId projectId : String) (seed : Int)
    (total : ℕ) (otd_pct lead_avg : ℚ) (p90A : Option ℚ) (util : Option ℚ)
    (genAt : ℚ) : Option (List TimelineEvent × KpiReport) :=
  match p90A with
  | Option.none => Option.none
  | some p90 =>
      some (timeline,
        { run_id := runId, project_id := projectId, seed := seed
          total_jobs := total
          otd_pct := round4 otd_pct
          lead_time_avg_hours := round4 lead_avg
          lead_time_p90_hours := round4 p90
          machine_utilization := util.map round4
          generated_at := genAt })

/-- `run_simulation`: the simulation loop followed by KPI aggregation.
Returns the timeline rows and the KPI report, or `Option.none` when the
KPI aggregation raises (`statistics.quantiles` on a sample of fewer
than two lead times). -/
def run_simulation (runId projectId : String) (seed : Int) (sc : Scenario)
    (draw : ℕ → ℚ) (base genAt : ℚ) : Option (List TimelineEvent × KpiReport) :=
  let st := simLoop runId sc.setup_matrix base draw 0 sc.jobs (initSimState base)
  let lo := leadOtd base st.completions 0 sc.jobs
  let leads := lo.1
  let otd_count := lo.2
  let total := sc.jobs.length
  let otd_pct : ℚ := if 0 < total then ((otd_count : ℚ) / (total : ℚ)) * 100 else 0
  let lead_avg : ℚ := if leads = [] then 0 else leads.sum / (leads.length : ℚ)
  let p90A : Option ℚ :=
    if 1 ≤ leads.length then (quantilesExclusive leads 10).map (fun l => (l.getLast?).getD 0)
    else some 0
  let util : Option ℚ :=
    (st.workSeconds).map fun busy =>
      let horizon := if base < st.availableAt then (st.availableAt - base) * 3600 else 1
      if 0 < horizon then min 1 (busy / horizon) else 0
  finishRun st.timeline runId projectId seed total otd_pct lead_avg p90A util genAt

/-! ## Theorems -/

/-- C8: for every machine id and every time `now`, `next_downtime` called
without a random source (`rng=None`) with `mtbf_hours=24` and
`mttr_hours=4` returns exactly the window starting at `now+24h` and
ending at `now+28h` with reason `"scheduled-placeholder"` (for every
model of `math.log`, which the deterministic branch never consults). -/
theorem next_downtime_deterministic_window (pln : ℚ → ℚ) (machine_id : String) (now : ℚ) :
    next_downtime pln machine_id now 24 4 Option.none =
      { machine_id := machine_id, start := some (now + 24), endT := some (now + 28),
        reason := some "scheduled-placeholder" } := by
  have h : now + 24 + 4 = now + 28 := by ring
  simp only [next_downtime, h]

/-- C6: for every dict step carrying an attempt counter and every
failed-and-allowed inspection outcome, `apply_rework_if_needed` returns
`None` when the counter is at least `max_rework_attempts`, and otherwise
returns a copy of the step with the counter incremented by one (the
input step itself is untouched — the embedding is pure, mirroring the
source's `dict(step)` copy). -/
theorem apply_rework_bounded (job_id : String) (step : RWStep) (outcome : InspectionOutcome)
    (mra : Int) (hf : outcome.inspection_failed = true) (ha : outcome.rework_allowed = true) :
    (mra ≤ step.rework_attempts →
        apply_rework_if_needed job_id step outcome mra = Option.none) ∧
      (step.rework_attempts < mra →
        apply_rework_if_needed job_id step outcome mra =
          some { step with rework_attempts := step.rework_attempts + 1 }) := by
  constructor
  · intro h
    simp [apply_rework_if_needed, hf, ha, h]
  · intro h
    simp [apply_rework_if_needed, hf, ha, not_le.mpr h]

/-- C6 witness: a step with `_rework_attempts=0` under
`max_rework_attempts=1` and a failed+allowed outcome yields a step with
`_rework_attempts=1`; the same call on that returned step yields `None`. -/
theorem apply_rework_bounded_witness :
    apply_rework_if_needed "job-1" ⟨0, []⟩ ⟨true, true⟩ 1 = some ⟨1, []⟩ ∧
      apply_rework_if_needed "job-1" ⟨1, []⟩ ⟨true, true⟩ 1 = Option.none := by
  constructor
  · have h := (apply_rework_bounded "job-1" ⟨0, []⟩ ⟨true, true⟩ 1 rfl rfl).2 (by norm_num)
    simpa using h
  · exact (apply_rework_bounded "job-1" ⟨1, []⟩ ⟨true, true⟩ 1 rfl rfl).1 (by norm_num)

/-- A scenario with exactly one valid job (identifier, positive mean
process time, due offset all present). -/
def oneJobScenario : Scenario :=
  { jobs := [{ job_id := some "job-1", product_id := some "prod-A",
               process_time_mean := some 1, due_offset_hours := some 24,
               release_offset_hours := Option.none }],
    setup_matrix := [] }

/-- C2 (code bug): on a scenario with exactly one job the KPI
aggregation of `run_simulation` calls `statistics.quantiles` on a
one-element lead-time sample (the guard is `len(...) >= 1` but
`quantiles` demands at least two data points), so the call raises
`StatisticsError` and aborts without returning a result — for every
jitter stream and every wall-clock reading. -/
theorem run_simulation_single_job_raises (rid pid : String) (seed : Int)
    (draw : ℕ → ℚ) (base genAt : ℚ) :
    run_simulation rid pid seed oneJobScenario draw base genAt = Option.none := rfl

/-! ### Release-control lemmas -/

theorem getI_insertA (m : List (String × Int)) (k : String) (v : Int) (r : String) :
    getI (insertA m k v) r = if k = r then v else getI m r := by
  by_cases h : k = r
  · subst h
    simp [getI, lookupA_insertA_self]
  · simp [getI, h, lookupA_insertA_ne m k r v h]

/-- A state exercising the global-token fallback of `release_jobs`:
route `R1` has a token entry exhausted at `0`, the global pool holds one
token, one job on `R1` is pending. -/
def exhaustedTokenState : RelState :=
  { pending := [{ job_id := some "jobA", route_id := some "R1", route := Option.none }],
    wip_caps := [],
    tokens := [("R1", 0), ("global", 1)],
    wip_counts := [] }

/-- C3 counterexample: under CONWIP, a job whose route has a
route-specific token entry exhausted at `0` IS admitted via the global
pool (the route-token branch cannot have fired, its balance being `0`),
contradicting the claim that the global fallback requires the route to
have no token entry at all. -/
theorem release_global_fallback_counterexample :
    release_jobs 0 "CONWIP" exhaustedTokenState = ["jobA"] ∧
      lookupA exhaustedTokenState.tokens "R1" = some 0 := by
  constructor
  · simp [release_jobs, exhaustedTokenState, conwipResult, globalCap, releaseLoop,
      releaseStepT, routeOf, truthyStr, routeCapD, getI, lookupA, insertA]
  · simp [exhaustedTokenState, lookupA]

/-- C3 (amended): in the CONWIP/POLCA loop body, a job is admitted by
consuming from the global token pool exactly when its id is truthy, its
route is under its cap, the route's token balance in the local view is
not positive — which covers both a missing route entry (lookup default
`0`) and an entry exhausted at `0` — and the `"global"` entry exists
with a positive balance. -/
theorem releaseStep_global_fallback (gcap : Int) (caps : List (String × Int))
    (acc : RelAcc) (job : RJob) :
    (releaseStepT gcap caps acc job).2 = ReleaseBranch.fromGlobal ↔
      ((∃ s, truthyStr job.job_id = some s) ∧
        getI acc.wip (routeOf job) < routeCapD caps gcap (routeOf job) ∧
        getI acc.tokens (routeOf job) ≤ 0 ∧
        ∃ g, lookupA acc.tokens "global" = some g ∧ 0 < g) := by
  unfold releaseStepT
  cases htr : truthyStr job.job_id with
  | none => simp [htr]
  | some jid =>
    simp only [htr]
    by_cases h1 : getI acc.wip (routeOf job) < routeCapD caps gcap (routeOf job) ∧
        0 < getI acc.tokens (routeOf job)
    · rw [if_pos h1]
      constructor
      · intro h
        exact ReleaseBranch.noConfusion h
      · rintro ⟨-, -, hle, -⟩
        exact absurd h1.2 (not_lt.mpr hle)
    · rw [if_neg h1]
      cases hg : lookupA acc.tokens "global" with
      | none =>
          simp only []
          constructor
          · intro h
            exact ReleaseBranch.noConfusion h
          · rintro ⟨-, -, -, g', hg', -⟩
            exact Option.noConfusion hg'
      | some g =>
        simp only []
        by_cases h2 : getI acc.wip (routeOf job) < routeCapD caps gcap (routeOf job) ∧ 0 < g
        · rw [if_pos h2]
          constructor
          · intro _
            refine ⟨⟨jid, rfl⟩, h2.1, ?_, g, rfl, h2.2⟩
            exact not_lt.mp (fun hb => h1 ⟨h2.1, hb⟩)
          · intro _
            rfl
        · rw [if_neg h2]
          constructor
          · intro h
            exact ReleaseBranch.noConfusion h
          · rintro ⟨⟨s, hs⟩, hcap, hle, g', hg', hgpos⟩
            injection hg' with h'
            subst h'
            exact absurd ⟨hcap, hgpos⟩ h2

/-! C5 helper: one loop-body step keeps every local token balance
non-negative. -/
theorem releaseStepT_tokens_nonneg (gcap : Int) (caps : List (String × Int))
    (acc : RelAcc) (job : RJob) (h : ∀ r, 0 ≤ getI acc.tokens r) :
    ∀ r, 0 ≤ getI (releaseStepT gcap caps acc job).1.tokens r := by
  intro r
  unfold releaseStepT
  cases htr : truthyStr job.job_id with
  | none => exact h r
  | some jid =>
    simp only [htr]
    by_cases h1 : getI acc.wip (routeOf job) < routeCapD caps gcap (routeOf job) ∧
        0 < getI acc.tokens (routeOf job)
    · rw [if_pos h1]
      simp only []
      rw [getI_insertA]
      by_cases hr : routeOf job = r
      · rw [if_pos hr]
        have := h1.2
        have := h (routeOf job)
        omega
      · rw [if_neg hr]
        exact h r
    · rw [if_neg h1]
      cases hg : lookupA acc.tokens "global" with
      | none => exact h r
      | some g =>
        simp only []
        by_cases h2 : getI acc.wip (routeOf job) < routeCapD caps gcap (routeOf job) ∧ 0 < g
        · rw [if_pos h2]
          simp only []
          rw [getI_insertA]
          by_cases hr : ("global" : String) = r
          · rw [if_pos hr]
            have := h2.2
            omega
          · rw [if_neg hr]
            exact h r
        · rw [if_neg h2]
          exact h r

theorem releaseLoop_tokens_nonneg (gcap : Int) (caps : List (String × Int)) :
    ∀ (pending : List RJob) (acc : RelAcc), (∀ r, 0 ≤ getI acc.tokens r) →
      ∀ r, 0 ≤ getI (releaseLoop gcap caps pending acc).tokens r := by
  intro pending
  induction pending with
  | nil => intro acc h r; exact h r
  | cons j rest ih =>
      intro acc h r
      unfold releaseLoop
      by_cases hb : gcap ≤ (acc.selected.length : Int)
      · simp only [hb, if_true]
        exact h r
      · simp only [hb, if_false]
        exact ih _ (releaseStepT_tokens_nonneg gcap caps acc j h) r

/-- C5: for every state whose token balances are initially non-negative,
no balance in the local token view maintained by a CONWIP/POLCA
`release_jobs` call ever becomes negative: every step of the loop
preserves non-negativity of every balance (first conjunct, quantified
over every reachable intermediate accumulator), and in particular the
final local view of the call is non-negative (second conjunct). -/
theorem release_tokens_never_negative :
    (∀ (gcap : Int) (caps : List (String × Int)) (pending : List RJob) (acc : RelAcc),
        (∀ r, 0 ≤ getI acc.tokens r) →
        ∀ r, 0 ≤ getI (releaseLoop gcap caps pending acc).tokens r) ∧
      (∀ state : RelState, (∀ r, 0 ≤ getI state.tokens r) →
        ∀ r, 0 ≤ getI (conwipResult state).tokens r) := by
  refine ⟨releaseLoop_tokens_nonneg, ?_⟩
  intro state h r
  exact releaseLoop_tokens_nonneg (globalCap state) state.wip_caps state.pending _ h r

/-- C5 witness: a concrete CONWIP state with tokens `{R1: 1}` and two
pending `R1` jobs admits one job and leaves the `R1` balance at `0`,
not negative. -/
theorem release_tokens_never_negative_witness :
    0 ≤ getI (conwipResult
        { pending := [{ job_id := some "a", route_id := some "R1", route := Option.none },
                      { job_id := some "b", route_id := some "R1", route := Option.none }],
          wip_caps := [], tokens := [("R1", 1)], wip_counts := [] }).tokens "R1" :=
  release_tokens_never_negative.2
    { pending := [{ job_id := some "a", route_id := some "R1", route := Option.none },
                  { job_id := some "b", route_id := some "R1", route := Option.none }],
      wip_caps := [], tokens := [("R1", 1)], wip_counts := [] }
    (by
      intro r
      simp only [getI, lookupA]
      by_cases h : ("R1" : String) = r
      · simp [h]
      · simp [h])
    "R1"

/-! ### C4 helpers -/

theorem releaseStepT_selected_length (gcap : Int) (caps : List (String × Int))
    (acc : RelAcc) (job : RJob) :
    (releaseStepT gcap caps acc job).1.selected.length ≤ acc.selected.length + 1 := by
  unfold releaseStepT
  cases htr : truthyStr job.job_id with
  | none => exact Nat.le_succ _
  | some jid =>
    simp only [htr]
    by_cases h1 : getI acc.wip (routeOf job) < routeCapD caps gcap (routeOf job) ∧
        0 < getI acc.tokens (routeOf job)
    · rw [if_pos h1]
      simp
    · rw [if_neg h1]
      cases hg : lookupA acc.tokens "global" with
      | none => exact Nat.le_succ _
      | some g =>
        simp only []
        by_cases h2 : getI acc.wip (routeOf job) < routeCapD caps gcap (routeOf job) ∧ 0 < g
        · rw [if_pos h2]
          simp
        · rw [if_neg h2]
          exact Nat.le_succ _

theorem releaseLoop_selected_length (gcap : Int) (caps : List (String × Int)) :
    ∀ (pending : List RJob) (acc : RelAcc), (acc.selected.length : Int) ≤ gcap →
      ((releaseLoop gcap caps pending acc).selected.length : Int) ≤ gcap := by
  intro pending
  induction pending with
  | nil => intro acc h; exact h
  | cons j rest ih =>
      intro acc h
      unfold releaseLoop
      by_cases hb : gcap ≤ (acc.selected.length : Int)
      · rw [if_pos hb]
        exact h
      · rw [if_neg hb]
        refine ih _ ?_
        have hlt : (acc.selected.length : Int) < gcap := lt_of_not_le hb
        have hstep := releaseStepT_selected_length gcap caps acc j
        have : ((releaseStepT gcap caps acc j).1.selected.length : Int) ≤
            (acc.selected.length : Int) + 1 := by exact_mod_cast hstep
        omega

theorem releaseStepT_wip_le_cap (gcap : Int) (caps : List (String × Int))
    (acc : RelAcc) (job : RJob)
    (h : ∀ r, getI acc.wip r ≤ routeCapD caps gcap r) :
    ∀ r, getI (releaseStepT gcap caps acc job).1.wip r ≤ routeCapD caps gcap r := by
  intro r
  unfold releaseStepT
  cases htr : truthyStr job.job_id with
  | none => exact h r
  | some jid =>
    simp only [htr]
    by_cases h1 : getI acc.wip (routeOf job) < routeCapD caps gcap (routeOf job) ∧
        0 < getI acc.tokens (routeOf job)
    · rw [if_pos h1]
      simp only []
      rw [getI_insertA]
      by_cases hr : routeOf job = r
      · subst hr
        rw [if_pos rfl]
        have := h1.1
        omega
      · rw [if_neg hr]
        exact h r
    · rw [if_neg h1]
      cases hg : lookupA acc.tokens "global" with
      | none => exact h r
      | some g =>
        simp only []
        by_cases h2 : getI acc.wip (routeOf job) < routeCapD caps gcap (routeOf job) ∧ 0 < g
        · rw [if_pos h2]
          simp only []
          rw [getI_insertA]
          by_cases hr : routeOf job = r
          · subst hr
            rw [if_pos rfl]
            have := h2.1
            omega
          · rw [if_neg hr]
            exact h r
        · rw [if_neg h2]
          exact h r

theorem releaseLoop_wip_le_cap (gcap : Int) (caps : List (String × Int)) :
    ∀ (pending : List RJob) (acc : RelAcc),
      (∀ r, getI acc.wip r ≤ routeCapD caps gcap r) →
      ∀ r, getI (releaseLoop gcap caps pending acc).wip r ≤ routeCapD caps gcap r := by
  intro pending
  induction pending with
  | nil => intro acc h r; exact h r
  | cons j rest ih =>
      intro acc h r
      unfold releaseLoop
      by_cases hb : gcap ≤ (acc.selected.length : Int)
      · rw [if_pos hb]
        exact h r
      · rw [if_neg hb]
        exact ih _ (releaseStepT_wip_le_cap gcap caps acc j h) r

theorem lookupA_eq_none {β : Type} (m : List (String × β)) (r : String)
    (h : r ∉ m.map Prod.fst) : lookupA m r = Option.none := by
  induction m with
  | nil => rfl
  | cons p ps ih =>
      simp only [List.map_cons, List.mem_cons] at h
      push_neg at h
      rw [lookupA_cons, if_neg fun he => h.1 he.symm]
      exact ih h.2

/-- C4: for every state whose per-route WIP counts do not already
exceed their caps (for every route name, counting an absent entry as
`0`), after a CONWIP/POLCA `release_jobs` call the local WIP view of
every route is at most that route's configured cap (`wip_caps` entry,
falling back to the global cap), and the number of admitted jobs is at
most the global cap. -/
theorem release_cap_compliance (state : RelState)
    (hcap : ∀ r, getI state.wip_counts r ≤ routeCapD state.wip_caps (globalCap state) r) :
    (∀ r, getI (conwipResult state).wip r ≤ routeCapD state.wip_caps (globalCap state) r) ∧
      ((conwipResult state).selected.length : Int) ≤ globalCap state := by
  have hg0 : 0 ≤ globalCap state := by
    obtain ⟨r0, hr0⟩ := Infinite.exists_not_mem_finset
      ((state.wip_counts.map Prod.fst ++ state.wip_caps.map Prod.fst).toFinset)
    rw [List.mem_toFinset, List.mem_append] at hr0
    push_neg at hr0
    have h1 : lookupA state.wip_counts r0 = Option.none := lookupA_eq_none _ _ hr0.1
    have h2 : lookupA state.wip_caps r0 = Option.none := lookupA_eq_none _ _ hr0.2
    have h3 := hcap r0
    rw [getI, h1] at h3
    rw [routeCapD, h2] at h3
    simpa using h3
  constructor
  · exact releaseLoop_wip_le_cap _ _ state.pending _ hcap
  · refine releaseLoop_selected_length _ _ state.pending _ ?_
    simpa using hg0

/-- C4 witness: a concrete CONWIP state (cap 1 on route `R1`, ample
tokens, two pending `R1` jobs) where the post-call `R1` WIP view stays
at its cap and the admitted count stays under the global cap. -/
theorem release_cap_compliance_witness :
    getI (conwipResult
        { pending := [{ job_id := some "a", route_id := some "R1", route := Option.none },
                      { job_id := some "b", route_id := some "R1", route := Option.none }],
          wip_caps := [("R1", 1)], tokens := [("R1", 5)], wip_counts := [] }).wip "R1" ≤
        routeCapD [("R1", 1)]
          (globalCap
            { pending := [{ job_id := some "a", route_id := some "R1", route := Option.none },
                          { job_id := some "b", route_id := some "R1", route := Option.none }],
              wip_caps := [("R1", 1)], tokens := [("R1", 5)], wip_counts := [] }) "R1" ∧
      ((conwipResult
        { pending := [{ job_id := some "a", route_id := some "R1", route := Option.none },
                      { job_id := some "b", route_id := some "R1", route := Option.none }],
          wip_caps := [("R1", 1)], tokens := [("R1", 5)],
          wip_counts := [] }).selected.length : Int) ≤
        globalCap
          { pending := [{ job_id := some "a", route_id := some "R1", route := Option.none },
                        { job_id := some "b", route_id := some "R1", route := Option.none }],
            wip_caps := [("R1", 1)], tokens := [("R1", 5)], wip_counts := [] } := by
  have h := release_cap_compliance
    { pending := [{ job_id := some "a", route_id := some "R1", route := Option.none },
                  { job_id := some "b", route_id := some "R1", route := Option.none }],
      wip_caps := [("R1", 1)], tokens := [("R1", 5)], wip_counts := [] }
    (by
      intro r
      simp only [getI, lookupA_nil, Option.getD_none, routeCapD, globalCap]
      by_cases hr : ("R1" : String) = r
      · simp [lookupA, hr]
      · simp [lookupA, hr])
  exact ⟨h.1 "R1", h.2⟩

/-! ### C9: neutral-default priority -/

/-- C9 counterexample: under the supported rule SPT with a non-numeric
process time (an unparseable string), `compute_priority` does NOT return
`0`: the failed `float()` coerces the process time to `0.0` and the SPT
formula yields `1/(0 + 1e-6) = 1000000`, refuting the claim that every
internal failure yields priority `0` under any supported rule. -/
theorem compute_priority_spt_counterexample :
    compute_priority (fun _ => 1) (fun _ => Option.none) (fun _ => Option.none) "SPT"
        { due_date := Option.none, process_time_mean := some (PyVal.str "abc"),
          processing_time := Option.none } 0 = 1000000 ∧
      (1000000 : ℚ) ≠ 0 := by
  constructor
  · have hr : pyUpper "SPT" = "SPT" := by decide
    simp [compute_priority, hr, ptRawOf, ptOf, parse_due]
  · norm_num

/-- C9 (amended): `compute_priority` is total (the embedding returns a
value on every input) and degrades to neutral scoring as follows: an
unknown rule name yields `0`; a bad (unparseable or absent) due date
yields `0` under each due-date rule (EDD, ATC, ATCS, LSN); a
non-numeric process time is coerced to `0.0` rather than yielding
priority `0` — under SPT the result is then `1/(0+1e-6) = 1000000`,
the maximal SPT score, not `0`. -/
theorem compute_priority_neutral_defaults (pexp : ℚ → ℚ)
    (parseF parseDue : String → Option ℚ) (rule : String) (job : DJob) (now : ℚ) :
    (pyUpper rule ≠ "EDD" → pyUpper rule ≠ "SPT" → pyUpper rule ≠ "ATC" →
        pyUpper rule ≠ "ATCS" → pyUpper rule ≠ "LSN" →
        compute_priority pexp parseF parseDue rule job now = 0) ∧
      ((pyUpper rule = "EDD" ∨ pyUpper rule = "ATC" ∨ pyUpper rule = "ATCS" ∨
          pyUpper rule = "LSN") →
        parse_due parseDue (job.due_date.getD DueVal.vnone) = Option.none →
        compute_priority pexp parseF parseDue rule job now = 0) ∧
      (pyUpper rule = "SPT" → ∀ s, ptRawOf job = PyVal.str s → parseF s = Option.none →
        compute_priority pexp parseF parseDue rule job now = 1000000) := by
  refine ⟨?_, ?_, ?_⟩
  · intro h1 h2 h3 h4 h5
    simp [compute_priority, h1, h2, h3, h4, h5]
  · intro hr hdue
    rcases hr with h | h | h | h <;>
      simp [compute_priority, h, hdue]
  · intro hr s hs hparse
    have hpt : ptOf parseF (ptRawOf job) = 0 := by
      rw [hs]
      by_cases he : s = ""
      · simp [ptOf, he]
      · simp [ptOf, he, hparse]
    simp [compute_priority, hr, hpt]

/-- C9 witness: an unknown rule name gives neutral priority `0`. -/
theorem compute_priority_neutral_defaults_witness :
    compute_priority (fun _ => 1) (fun _ => Option.none) (fun _ => Option.none) "FIFO"
        { due_date := Option.none, process_time_mean := Option.none,
          processing_time := Option.none } 0 = 0 :=
  (compute_priority_neutral_defaults (fun _ => 1) (fun _ => Option.none)
      (fun _ => Option.none) "FIFO"
      { due_date := Option.none, process_time_mean := Option.none,
        processing_time := Option.none } 0).1
    (by decide) (by decide) (by decide) (by decide) (by decide)

/-! ### C10: non-negative processing durations -/

theorem simLoop_process_events (runId : String) (stp : List SetupRow) (base : ℚ)
    (draw : ℕ → ℚ) :
    ∀ (jobs : List SimJob) (idx : ℕ) (st : SimState),
      (∀ e ∈ st.timeline, e.event = EventKind.process →
        0 ≤ e.duration_hours ∧ e.start ≤ e.endT) →
      ∀ e ∈ (simLoop runId stp base draw idx jobs st).timeline,
        e.event = EventKind.process → 0 ≤ e.duration_hours ∧ e.start ≤ e.endT := by
  intro jobs
  induction jobs with
  | nil => intro idx st h; exact h
  | cons j rest ih =>
      intro idx st h
      refine ih (idx + 1) _ ?_
      intro e he hk
      simp only [simStep] at he
      split at he
      · simp only [List.mem_append, List.mem_cons, List.mem_singleton,
          List.not_mem_nil, or_false] at he
        rcases he with he | he | he
        · exact h e he hk
        · subst he
          exact absurd hk (by simp)
        · subst he
          refine ⟨le_max_left 0 _, ?_⟩
          simp only []
          exact le_add_of_nonneg_right (le_max_left 0 _)
      · simp only [List.mem_append, List.mem_singleton, List.not_mem_nil,
          List.mem_cons, or_false] at he
        rcases he with he | he
        · exact h e he hk
        · subst he
          refine ⟨le_max_left 0 _, ?_⟩
          simp only []
          exact le_add_of_nonneg_right (le_max_left 0 _)

/-- C10: every processing timeline event of a completed
`run_simulation` has a non-negative duration and an end time not
earlier than its start, whatever the jitter values (even unbounded
negative ones) and mean process times: the effective process time is
clamped to `max(0, mean + jitter)`. -/
theorem run_simulation_process_durations (rid pid : String) (seed : Int)
    (sc : Scenario) (draw : ℕ → ℚ) (base genAt : ℚ) (tl : List TimelineEvent)
    (kpi : KpiReport)
    (h : run_simulation rid pid seed sc draw base genAt = some (tl, kpi)) :
    ∀ e ∈ tl, e.event = EventKind.process →
      0 ≤ e.duration_hours ∧ e.start ≤ e.endT := by
  have htl : tl =
      (simLoop rid sc.setup_matrix base draw 0 sc.jobs (initSimState base)).timeline := by
    simp only [run_simulation, finishRun] at h
    split at h
    · exact Option.noConfusion h
    · injection h with h'
      injection h' with h1 h2
      exact h1.symm
  subst htl
  intro e he hk
  refine simLoop_process_events rid sc.setup_matrix base draw sc.jobs 0 (initSimState base)
    ?_ e he hk
  intro e' he'
  simp [initSimState] at he'

/-- A two-job scenario used to exhibit a completed run. -/
def jitterDemoScenario : Scenario :=
  { jobs := [{ job_id := some "a", product_id := some "A", process_time_mean := some 1,
               due_offset_hours := Option.none, release_offset_hours := Option.none },
             { job_id := some "b", product_id := some "A", process_time_mean := some 1,
               due_offset_hours := Option.none, release_offset_hours := Option.none }],
    setup_matrix := [] }

/-- The timeline the demo run produces (zero jitter, base time `0`). -/
def jitterDemoTimeline : List TimelineEvent :=
  [{ run_id := "r", job_id := "a", machine_id := "M1", event := EventKind.process,
     start := 0, endT := 1, duration_hours := 1, product_family := some "A",
     product_family_from := Option.none, product_family_to := Option.none },
   { run_id := "r", job_id := "b", machine_id := "M1", event := EventKind.process,
     start := 1, endT := 2, duration_hours := 1, product_family := some "A",
     product_family_from := Option.none, product_family_to := Option.none }]

/-- The KPI report the demo run produces. -/
def jitterDemoKpi : KpiReport :=
  { run_id := "r", project_id := "p", seed := 0, total_jobs := 2, otd_pct := 100,
    lead_time_avg_hours := 3 / 2, lead_time_p90_hours := 17 / 10,
    machine_utilization := some 1, generated_at := 0 }

set_option maxHeartbeats 1000000 in
/-- C10 witness: the first processing event of a concrete completed run
has non-negative duration and an end not earlier than its start. -/
theorem run_simulation_process_durations_witness :
    (0 : ℚ) ≤ (jitterDemoTimeline.headD
        { run_id := "", job_id := "", machine_id := "", event := EventKind.setup,
          start := 0, endT := 0, duration_hours := 0, product_family := Option.none,
          product_family_from := Option.none,
          product_family_to := Option.none }).duration_hours ∧
      (jitterDemoTimeline.headD
        { run_id := "", job_id := "", machine_id := "", event := EventKind.setup,
          start := 0, endT := 0, duration_hours := 0, product_family := Option.none,
          product_family_from := Option.none,
          product_family_to := Option.none }).start ≤
      (jitterDemoTimeline.headD
        { run_id := "", job_id := "", machine_id := "", event := EventKind.setup,
          start := 0, endT := 0, duration_hours := 0, product_family := Option.none,
          product_family_from := Option.none,
          product_family_to := Option.none }).endT := by
  have hrun : run_simulation "r" "p" 0 jitterDemoScenario (fun _ => 0) 0 0 =
      some (jitterDemoTimeline, jitterDemoKpi) := by
    have hrange : (List.range 9).getLast? = some 8 := by decide
    simp [run_simulation, finishRun, simLoop, simStep, initSimState, leadOtd,
      quantilesExclusive, sortAsc, insertSorted, setupLookup, jitterDemoScenario,
      jitterDemoTimeline, jitterDemoKpi, lookupA, insertA, hrange]
    norm_num [round4, roundHalfEven, hrange]
  exact run_simulation_process_durations "r" "p" 0 jitterDemoScenario (fun _ => 0) 0 0
    jitterDemoTimeline jitterDemoKpi hrun _
    (by simp [jitterDemoTimeline]) (by simp [jitterDemoTimeline])

/-! ### C1: determinism up to the wall-clock reading

`run_simulation` reads `datetime.utcnow()` at the start of the run (the
`base` parameter of the embedding) and timestamps every timeline row
with absolute times derived from it, so two invocations at different
wall-clock instants are not byte-identical.  Everything except the
absolute timestamps (and the KPI report's `generated_at`) is a pure
function of the manifest and seed: the shape projections below erase
exactly those fields, and shifting the wall-clock base shifts every
absolute time by the same amount while fixing every shape. -/

/-- A timeline row with its absolute `start`/`end` timestamps erased. -/
def eventShape (e : TimelineEvent) :
    String × String × String × EventKind × ℚ × Option String × Option String ×
      Option String :=
  (e.run_id, e.job_id, e.machine_id, e.event, e.duration_hours,
   e.product_family, e.product_family_from, e.product_family_to)

/-- The KPI report with its `generated_at` wall-clock stamp erased. -/
def kpiShape (k : KpiReport) :
    String × String × Int × ℕ × ℚ × ℚ × ℚ × Option ℚ :=
  (k.run_id, k.project_id, k.seed, k.total_jobs, k.otd_pct,
   k.lead_time_avg_hours, k.lead_time_p90_hours, k.machine_utilization)

/-- The invocation-time-independent part of a run result. -/
def runShape (r : List TimelineEvent × KpiReport) :
    List (String × String × String × EventKind × ℚ × Option String × Option String ×
      Option String) × (String × String × Int × ℕ × ℚ × ℚ × ℚ × Option ℚ) :=
  (r.1.map eventShape, kpiShape r.2)

/-- Shift a timeline row's absolute timestamps by `c` hours. -/
def shiftEvent (c : ℚ) (e : TimelineEvent) : TimelineEvent :=
  { e with start := e.start + c, endT := e.endT + c }

/-- Shift every absolute time in a loop state by `c` hours. -/
def shiftState (c : ℚ) (st : SimState) : SimState :=
  { timeline := st.timeline.map (shiftEvent c)
    workSeconds := st.workSeconds
    completions := st.completions.map fun p => (p.1, p.2 + c)
    lastFamily := st.lastFamily
    availableAt := st.availableAt + c }

theorem lookupA_map_shift (c : ℚ) (m : List (String × ℚ)) (k : String) :
    lookupA (m.map fun p => (p.1, p.2 + c)) k = (lookupA m k).map (· + c) := by
  induction m with
  | nil => rfl
  | cons p ps ih =>
      by_cases h : p.1 = k
      · simp [h]
      · simp [h, ih]

theorem insertA_map_shift (c : ℚ) (m : List (String × ℚ)) (k : String) (v : ℚ) :
    insertA (m.map fun p => (p.1, p.2 + c)) k (v + c) =
      (insertA m k v).map fun p => (p.1, p.2 + c) := by
  induction m with
  | nil => rfl
  | cons p ps ih =>
      by_cases h : p.1 = k
      · simp [insertA, h]
      · simp [insertA, h, ih]

theorem insertA_map_shift2 (c : ℚ) (m : List (String × ℚ)) (k : String) (v w : ℚ)
    (h : v = w + c) :
    insertA (m.map fun p => (p.1, p.2 + c)) k v =
      (insertA m k w).map fun p => (p.1, p.2 + c) := by
  rw [h, insertA_map_shift]

theorem simStep_shift (rid : String) (stp : List SetupRow) (base c : ℚ)
    (draw : ℕ → ℚ) (idx : ℕ) (job : SimJob) (st : SimState) :
    simStep rid stp (base + c) draw idx job (shiftState c st) =
      shiftState c (simStep rid stp base draw idx job st) := by
  simp only [simStep, shiftState]
  have hrel : base + c + (job.release_offset_hours).getD 0 =
      base + (job.release_offset_hours).getD 0 + c := by ring
  rw [hrel, max_add_add_right]
  split
  · simp only [SimState.mk.injEq, List.map_append, List.map_cons, List.map_nil, shiftEvent]
    refine ⟨?_, trivial, ?_, trivial, by ring⟩
    · ring_nf
    · exact insertA_map_shift2 c _ _ _ _ (by ring)
  · simp only [SimState.mk.injEq, List.map_append, List.map_cons, List.map_nil, shiftEvent]
    refine ⟨?_, trivial, ?_, trivial, by ring⟩
    · ring_nf
    · exact insertA_map_shift2 c _ _ _ _ (by ring)

theorem simLoop_shift (rid : String) (stp : List SetupRow) (base c : ℚ) (draw : ℕ → ℚ) :
    ∀ (jobs : List SimJob) (idx : ℕ) (st : SimState),
      simLoop rid stp (base + c) draw idx jobs (shiftState c st) =
        shiftState c (simLoop rid stp base draw idx jobs st) := by
  intro jobs
  induction jobs with
  | nil => intro idx st; rfl
  | cons j rest ih =>
      intro idx st
      simp only [simLoop]
      rw [simStep_shift, ih]

theorem leadOtd_shift (base c : ℚ) (compl : List (String × ℚ)) :
    ∀ (jobs : List SimJob) (idx : ℕ),
      leadOtd (base + c) (compl.map fun p => (p.1, p.2 + c)) idx jobs =
        leadOtd base compl idx jobs := by
  intro jobs
  induction jobs with
  | nil => intro idx; rfl
  | cons j rest ih =>
      intro idx
      simp only [leadOtd, lookupA_map_shift, ih]
      have hc : ((lookupA compl ((j.job_id).getD ("job-" ++ toString idx))).map
          (· + c)).getD (base + c) =
          (lookupA compl ((j.job_id).getD ("job-" ++ toString idx))).getD base + c := by
        cases lookupA compl ((j.job_id).getD ("job-" ++ toString idx)) <;> simp
      rw [hc]
      have h1 : (lookupA compl ((j.job_id).getD ("job-" ++ toString idx))).getD base + c -
          (base + c + (j.release_offset_hours).getD 0) =
          (lookupA compl ((j.job_id).getD ("job-" ++ toString idx))).getD base -
          (base + (j.release_offset_hours).getD 0) := by ring
      rw [h1]
      have h2 : ((lookupA compl ((j.job_id).getD ("job-" ++ toString idx))).getD base + c ≤
          base + c + (j.due_offset_hours).getD 24) =
          ((lookupA compl ((j.job_id).getD ("job-" ++ toString idx))).getD base ≤
          base + (j.due_offset_hours).getD 24) := by
        apply propext
        constructor <;> intro h <;> linarith
      simp only [h2]

theorem eventShape_shiftEvent (c : ℚ) (e : TimelineEvent) :
    eventShape (shiftEvent c e) = eventShape e := rfl

theorem runShape_finishRun (tl1 tl2 : List TimelineEvent) (rid pid : String)
    (seed : Int) (total : ℕ) (otd lead : ℚ) (p90A : Option ℚ) (util : Option ℚ)
    (g1 g2 : ℚ) (htl : tl1.map eventShape = tl2.map eventShape) :
    (finishRun tl1 rid pid seed total otd lead p90A util g1).map runShape =
      (finishRun tl2 rid pid seed total otd lead p90A util g2).map runShape := by
  cases p90A with
  | none => rfl
  | some p90 => simp [finishRun, runShape, kpiShape, htl]

/-- C1 (amended): the invocation-time-independent shape of a run — the
timeline rows up to their absolute `start`/`end` timestamps, and the
full KPI report except `generated_at` — is a pure function of the
manifest fields and the seed's jitter stream: it is invariant under the
two `datetime.utcnow()` readings.  Full byte-identity of two
invocations additionally requires equal wall-clock readings, which the
counterexample shows is necessary. -/
theorem run_simulation_shape_deterministic (rid pid : String) (seed : Int)
    (sc : Scenario) (draw : ℕ → ℚ) (b1 b2 g1 g2 : ℚ) :
    (run_simulation rid pid seed sc draw b1 g1).map runShape =
      (run_simulation rid pid seed sc draw b2 g2).map runShape := by
  obtain ⟨c, rfl⟩ : ∃ c, b2 = b1 + c := ⟨b2 - b1, by ring⟩
  have hinit : initSimState (b1 + c) = shiftState c (initSimState b1) := by
    simp [initSimState, shiftState]
  have hloop : simLoop rid sc.setup_matrix (b1 + c) draw 0 sc.jobs
      (initSimState (b1 + c)) =
      shiftState c (simLoop rid sc.setup_matrix b1 draw 0 sc.jobs (initSimState b1)) := by
    rw [hinit, simLoop_shift]
  simp only [run_simulation, hloop]
  set st := simLoop rid sc.setup_matrix b1 draw 0 sc.jobs (initSimState b1) with hstdef
  have hcompl : (shiftState c st).completions =
      st.completions.map fun p => (p.1, p.2 + c) := rfl
  have hwork : (shiftState c st).workSeconds = st.workSeconds := rfl
  have havail : (shiftState c st).availableAt = st.availableAt + c := rfl
  rw [hcompl, leadOtd_shift]
  simp only [hwork, havail]
  have hlt : (b1 + c < st.availableAt + c) = (b1 < st.availableAt) := by
    apply propext
    constructor <;> intro h <;> linarith
  have hsub : st.availableAt + c - (b1 + c) = st.availableAt - b1 := by ring
  simp only [hlt, hsub]
  refine runShape_finishRun _ _ _ _ _ _ _ _ _ _ _ _ ?_
  have htl2 : (shiftState c st).timeline = st.timeline.map (shiftEvent c) := rfl
  rw [htl2, List.map_map]
  rfl

/-- A two-job scenario exhibiting timestamp drift between invocations. -/
def driftScenario : Scenario :=
  { jobs := [{ job_id := some "d1", product_id := some "P", process_time_mean := some 1,
               due_offset_hours := Option.none, release_offset_hours := Option.none },
             { job_id := some "d2", product_id := some "P", process_time_mean := some 1,
               due_offset_hours := Option.none, release_offset_hours := Option.none }],
    setup_matrix := [] }

set_option maxHeartbeats 1000000 in
/-- C1 counterexample: two invocations of `run_simulation` on the same
manifest (same run id, project, scenario, seed and hence jitter stream)
are NOT identical when the wall-clock readings differ: every timeline
row embeds absolute `datetime.utcnow()`-derived timestamps, so the
first processing event starts at hour `0` in one invocation and hour
`1` in the other. -/
theorem run_simulation_not_invocation_invariant :
    run_simulation "r" "p" 12345 driftScenario (fun _ => 0) 0 0 ≠
      run_simulation "r" "p" 12345 driftScenario (fun _ => 0) 1 1 := by
  intro h
  have h2 := congrArg (Option.map fun r => (r.1.head?.map TimelineEvent.start)) h
  simp [run_simulation, finishRun, simLoop, simStep, initSimState, leadOtd,
    quantilesExclusive, sortAsc, insertSorted, setupLookup, driftScenario,
    lookupA, insertA] at h2
  norm_num at h2

/-! ### C7: the two-job EDD scenario -/

/-- The spec's EDD scenario: job-1 (mean 1.0h, due +2h) before job-2
(mean 0.5h, due +3h), single machine, no setup matrix.  The scenario's
dispatch-rule entry (`EDD`) is not consumed by `run_simulation`, which
processes the job list in order; job-1 is first. -/
def eddScenario : Scenario :=
  { jobs := [{ job_id := some "job-1", product_id := some "P1", process_time_mean := some 1,
               due_offset_hours := some 2, release_offset_hours := Option.none },
             { job_id := some "job-2", product_id := some "P2",
               process_time_mean := some (1/2),
               due_offset_hours := some 3, release_offset_hours := Option.none }],
    setup_matrix := [] }

set_option maxHeartbeats 1000000 in
/-- C7: for every jitter stream within the `±5%` band drawn by
`rng.uniform(-0.05, 0.05)` — in particular the stream of seed `12345` —
and every wall-clock reading, the run on `eddScenario` completes, its
first timeline event processes job-1, and both jobs finish by their due
dates so the reported OTD% is exactly `100.0`. -/
theorem run_simulation_edd_two_jobs (rid pid : String) (seed : Int) (draw : ℕ → ℚ)
    (base genAt : ℚ) (hb : ∀ i, -(1/20 : ℚ) ≤ draw i ∧ draw i ≤ 1/20) :
    (run_simulation rid pid seed eddScenario draw base genAt).map
        (fun r => (r.1.head?.map TimelineEvent.job_id, r.2.total_jobs, r.2.otd_pct)) =
      some (some "job-1", 2, 100) := by
  obtain ⟨h0l, h0u⟩ := hb 0
  obtain ⟨h1l, h1u⟩ := hb 1
  have he1nn : (0:ℚ) ≤ max 0 (1 + draw 0 * 1) := le_max_left _ _
  have hmax2 : max (base + max 0 (1 + draw 0 * 1)) base = base + max 0 (1 + draw 0 * 1) := by
    apply max_eq_left
    linarith
  have hst : simLoop rid eddScenario.setup_matrix base draw 0 eddScenario.jobs
      (initSimState base) =
      { timeline := [
          { run_id := rid, job_id := "job-1", machine_id := "M1",
            event := EventKind.process,
            start := base, endT := base + max 0 (1 + draw 0 * 1),
            duration_hours := max 0 (1 + draw 0 * 1), product_family := some "P1",
            product_family_from := Option.none, product_family_to := Option.none },
          { run_id := rid, job_id := "job-2", machine_id := "M1",
            event := EventKind.process,
            start := base + max 0 (1 + draw 0 * 1),
            endT := base + max 0 (1 + draw 0 * 1) + max 0 (1/2 + draw 1 * (1/2)),
            duration_hours := max 0 (1/2 + draw 1 * (1/2)), product_family := some "P2",
            product_family_from := Option.none, product_family_to := Option.none }],
        workSeconds := some (max 0 (1 + draw 0 * 1) * 3600 +
          max 0 (1/2 + draw 1 * (1/2)) * 3600),
        completions := [("job-1", base + max 0 (1 + draw 0 * 1)),
                        ("job-2", base + max 0 (1 + draw 0 * 1) +
                          max 0 (1/2 + draw 1 * (1/2)))],
        lastFamily := some "P2",
        availableAt := base + max 0 (1 + draw 0 * 1) +
          max 0 (1/2 + draw 1 * (1/2)) } := by
    simp [eddScenario, simLoop, simStep, initSimState, setupLookup, insertA, hmax2]
  have hlead : leadOtd base
      [("job-1", base + max 0 (1 + draw 0 * 1)),
       ("job-2", base + max 0 (1 + draw 0 * 1) + max 0 (1/2 + draw 1 * (1/2)))] 0
      eddScenario.jobs =
      ([max 0 (base + max 0 (1 + draw 0 * 1) - base),
        max 0 (base + max 0 (1 + draw 0 * 1) + max 0 (1/2 + draw 1 * (1/2)) - base)],
       2) := by
    have hb1 : (0:ℚ) ⊔ (1 + draw 0) ≤ 21/20 := max_le (by norm_num) (by linarith)
    have hb2 : (0:ℚ) ⊔ (2⁻¹ + draw 1 * 2⁻¹) ≤ 21/40 := max_le (by norm_num) (by linarith)
    have hx1 : (1:ℚ) + draw 0 ≤ 2 := by linarith
    have hx2 : base + (0:ℚ) ⊔ (1 + draw 0) + (0:ℚ) ⊔ (2⁻¹ + draw 1 * 2⁻¹) ≤ base + 3 := by
      linarith
    simp [eddScenario, leadOtd, lookupA, hx1, hx2]
  simp only [run_simulation, hst, hlead]
  have hq : ∃ l, quantilesExclusive
      [max 0 (base + max 0 (1 + draw 0 * 1) - base),
       max 0 (base + max 0 (1 + draw 0 * 1) + max 0 (1/2 + draw 1 * (1/2)) - base)] 10 =
      some l := by
    unfold quantilesExclusive
    rw [if_neg (by norm_num)]
    have hlen : (sortAsc [max 0 (base + max 0 (1 + draw 0 * 1) - base),
        max 0 (base + max 0 (1 + draw 0 * 1) +
          max 0 (1/2 + draw 1 * (1/2)) - base)]).length = 2 := by
      simp only [sortAsc, insertSorted]
      split <;> simp
    rw [if_neg (by rw [hlen]; norm_num)]
    exact ⟨_, rfl⟩
  obtain ⟨l, hl⟩ := hq
  simp only [hl, finishRun, List.length_cons, List.length_nil, Option.map_some]
  norm_num [eddScenario, round4, roundHalfEven]

/-- C7 witness: the zero-jitter stream lies inside the `±5%` band, and
the instantiated run reports job-1 first, two jobs, OTD% `100.0`. -/
theorem run_simulation_edd_two_jobs_witness :
    (run_simulation "r7" "p7" 12345 eddScenario (fun _ => 0) 0 0).map
        (fun r => (r.1.head?.map TimelineEvent.job_id, r.2.total_jobs, r.2.otd_pct)) =
      some (some "job-1", 2, 100) :=
  run_simulation_edd_two_jobs "r7" "p7" 12345 (fun _ => 0) 0 0
    (by
      intro i
      constructor <;> norm_num)

end JobShop
